import Mathlib

/-!
Verification of the hardpoint-estimation and scale-conversion logic of the
solar-system-game analysis scripts.

The development shallowly embeds, over exact rational arithmetic (`ℚ`):

* `find_logical_hardpoints` from `scripts/analyze_model_geometry.py`
  (lines 101-176): the region-splitting hardpoint estimator that the spec
  consolidates as `HardpointEstimator.estimate`;
* the wing-weapon computation of `analyze_based_on_description` from
  `scripts/simple_ship_analysis.py` (lines 56-78), including a faithful
  model of `np.percentile` with linear interpolation;
* the scale-conversion arithmetic repeated in
  `scripts/debug_scaling.py` (lines 49-64), which the spec names
  `ScaleConverter.toSceneUnits`, together with the literal ship
  configuration constants of that script.

Vertex arrays are lists of rational 3-vectors; NumPy boolean-mask selection
is `List.filter` (order-preserving, as in NumPy); `np.mean(region, axis=0)`
is the per-coordinate arithmetic mean.  The mesh centroid is an explicit
input `center` of the estimator: in the source it is `mesh.centroid`,
computed by the external trimesh library (an area-weighted surface centroid
whose value is irrational in general); every universal theorem below
quantifies over it, and the concrete meshes used for witnesses and
counterexamples are chosen centrally symmetric, so that the symmetry centre
is simultaneously the trimesh centroid and the vertex mean.
-/

/-- A 3D point with exact rational coordinates, standing for one row of a
NumPy `(n, 3)` vertex array. -/
structure Vec3 where
  x : ℚ
  y : ℚ
  z : ℚ
deriving DecidableEq, Repr

/-- A weapon hardpoint, as built by `find_logical_hardpoints`
(`{'position': ..., 'type': 'cannon'}`). -/
structure Weapon where
  position : Vec3
  type : String
deriving DecidableEq, Repr

/-- An engine hardpoint, as built by `find_logical_hardpoints`
(`{'position': ..., 'type': ..., 'scale': ...}`). -/
structure Engine where
  position : Vec3
  type : String
  scale : ℚ
deriving DecidableEq, Repr

/-- The result dictionary `{'weapons': [...], 'engines': [...]}` of
`find_logical_hardpoints`. -/
structure Hardpoints where
  weapons : List Weapon
  engines : List Engine
deriving DecidableEq, Repr

/-- Minimum of a list of rationals; on a non-empty list this is the
per-axis lower bound `bounds[0][i]` that trimesh derives from the vertex
array. -/
def listMin : List ℚ → ℚ
  | [] => 0
  | a :: rest => rest.foldl min a

/-- Maximum of a list of rationals; on a non-empty list this is the
per-axis upper bound `bounds[1][i]`. -/
def listMax : List ℚ → ℚ
  | [] => 0
  | a :: rest => rest.foldl max a

/-- Per-coordinate arithmetic mean of a list of vertices:
`np.mean(vertices, axis=0)`. -/
def meanV (l : List Vec3) : Vec3 :=
  ⟨(l.map Vec3.x).sum / l.length, (l.map Vec3.y).sum / l.length,
    (l.map Vec3.z).sum / l.length⟩

/-- Extent of the mesh along the z axis: `bounds[1][2] - bounds[0][2]`
(`rear_z - front_z` in `find_logical_hardpoints`, lines 113-114). -/
def zExtent (vs : List Vec3) : ℚ :=
  listMax (vs.map Vec3.z) - listMin (vs.map Vec3.z)

/-- Front region of `find_logical_hardpoints` (line 118):
`vertices[vertices[:, 2] < center_z - (rear_z - front_z) * 0.2]`. -/
def frontRegion (vs : List Vec3) (center : Vec3) : List Vec3 :=
  vs.filter (fun v => v.z < center.z - zExtent vs * (2/10))

/-- Rear region of `find_logical_hardpoints` (line 119):
`vertices[vertices[:, 2] > center_z + (rear_z - front_z) * 0.2]`. -/
def rearRegion (vs : List Vec3) (center : Vec3) : List Vec3 :=
  vs.filter (fun v => v.z > center.z + zExtent vs * (2/10))

/-- Left part of the lateral split of the front region (line 126):
`front_region[front_region[:, 0] < front_center[0] - 2]`. -/
def frontLeft (vs : List Vec3) (center : Vec3) : List Vec3 :=
  (frontRegion vs center).filter
    (fun v => v.x < (meanV (frontRegion vs center)).x - 2)

/-- Right part of the lateral split of the front region (line 127):
`front_region[front_region[:, 0] > front_center[0] + 2]`. -/
def frontRight (vs : List Vec3) (center : Vec3) : List Vec3 :=
  (frontRegion vs center).filter
    (fun v => v.x > (meanV (frontRegion vs center)).x + 2)

/-- Left part of the lateral split of the rear region (line 153):
`rear_region[rear_region[:, 0] < rear_center[0] - 3]`. -/
def rearLeft (vs : List Vec3) (center : Vec3) : List Vec3 :=
  (rearRegion vs center).filter
    (fun v => v.x < (meanV (rearRegion vs center)).x - 3)

/-- Right part of the lateral split of the rear region (line 154):
`rear_region[rear_region[:, 0] > rear_center[0] + 3]`. -/
def rearRight (vs : List Vec3) (center : Vec3) : List Vec3 :=
  (rearRegion vs center).filter
    (fun v => v.x > (meanV (rearRegion vs center)).x + 3)

/-- Weapon list of `find_logical_hardpoints` (lines 121-141): if the front
region is non-empty, split it at ±2 native units around its mean x; when
both sides are populated the result is `[right, left]` cannons at the side
means, otherwise a single cannon at the front-region mean. -/
def weaponsOf (vs : List Vec3) (center : Vec3) : List Weapon :=
  if 0 < (frontRegion vs center).length then
    if 0 < (frontLeft vs center).length ∧ 0 < (frontRight vs center).length then
      [⟨meanV (frontRight vs center), "cannon"⟩,
       ⟨meanV (frontLeft vs center), "cannon"⟩]
    else
      [⟨meanV (frontRegion vs center), "cannon"⟩]
  else []

/-- Engine list of `find_logical_hardpoints` (lines 143-163): if the rear
region is non-empty, a `main` engine of scale 1.0 at the rear-region mean,
followed by `[right, left]` secondary engines of scale 0.7 at the side
means whenever both sides of the ±3-unit lateral split hold more than 5
vertices. -/
def enginesOf (vs : List Vec3) (center : Vec3) : List Engine :=
  if 0 < (rearRegion vs center).length then
    ⟨meanV (rearRegion vs center), "main", 1⟩ ::
      (if 5 < (rearLeft vs center).length ∧ 5 < (rearRight vs center).length then
        [⟨meanV (rearRight vs center), "secondary", 7/10⟩,
         ⟨meanV (rearLeft vs center), "secondary", 7/10⟩]
      else [])
  else []

/-- The estimator `find_logical_hardpoints(mesh, model_name)` of
`scripts/analyze_model_geometry.py`, lines 101-176 (the `model_name`
argument only labels print output and is dropped).  `center` is
`mesh.centroid`, supplied by the mesh library. -/
def find_logical_hardpoints (vs : List Vec3) (center : Vec3) : Hardpoints :=
  ⟨weaponsOf vs center, enginesOf vs center⟩

/-- The estimator with the ambient NumPy random-number-generator state made
explicit.  The estimation code of `find_logical_hardpoints` contains no
call into `np.random` (the only random sampling in
`analyze_model_geometry.py` is `np.random.choice` at line 189, inside
`create_model_visualization`), so the threaded state is neither read nor
advanced by any step of the estimation. -/
def find_logical_hardpointsRng (vs : List Vec3) (center : Vec3) (rng : ℕ) :
    Hardpoints × ℕ :=
  (find_logical_hardpoints vs center, rng)

/-- Failure that the estimator can actually raise: for an EMPTY mesh,
trimesh's `bounds` property is `None`, so the subscript `bounds[0][2]`
at line 113 of `analyze_model_geometry.py` raises a Python `TypeError`.
No `InvalidMeshError` or `EmptyRegionError` exists anywhere in the
source. -/
inductive EstimatorError where
  | typeError
deriving DecidableEq, Repr

/-- The estimator including its entry failure path: on an empty vertex
list the access `bounds[0][2]` (line 113) raises `TypeError` because
trimesh returns `None` bounds for an empty mesh; on every non-empty mesh
— degenerate zero-extent ones included — the estimation of
`find_logical_hardpoints` proceeds and returns normally. -/
def find_logical_hardpointsChecked (vs : List Vec3) (center : Vec3) :
    Except EstimatorError Hardpoints :=
  if vs = [] then .error .typeError
  else .ok (find_logical_hardpoints vs center)

/-- Membership of a point in the axis-aligned bounding volume of a vertex
list, the per-axis `bounds` that trimesh computes as min/max over the
vertices. -/
def inBoundingVolume (vs : List Vec3) (p : Vec3) : Prop :=
  listMin (vs.map Vec3.x) ≤ p.x ∧ p.x ≤ listMax (vs.map Vec3.x) ∧
  listMin (vs.map Vec3.y) ≤ p.y ∧ p.y ≤ listMax (vs.map Vec3.y) ∧
  listMin (vs.map Vec3.z) ≤ p.z ∧ p.z ≤ listMax (vs.map Vec3.z)

instance (vs : List Vec3) (p : Vec3) : Decidable (inBoundingVolume vs p) := by
  unfold inBoundingVolume
  infer_instance

/-- Error taxonomy of the scale conversion: the spec's
`DivisionByZeroError`, raised by Python's division operator exactly when
the denominator equals zero. -/
inductive ScaleError where
  | divisionByZero
deriving DecidableEq, Repr

/-- Model-scale computation of `debug_scaling.py`, line 49:
`model_scale = config['desired_length'] / config['native_length']`.  In
Python this division raises `ZeroDivisionError` exactly when
`native_length == 0`; the fallible computation is embedded as `Except`. -/
def modelScaleOf (desiredLength nativeLength : ℚ) : Except ScaleError ℚ :=
  if nativeLength = 0 then .error .divisionByZero
  else .ok (desiredLength / nativeLength)

/-- Per-axis scaling of a native position, `debug_scaling.py` lines 61-63:
`scaled_x = weapon['x'] * model_scale` (and likewise for y and z). -/
def scalePosition (p : Vec3) (modelScale : ℚ) : Vec3 :=
  ⟨p.x * modelScale, p.y * modelScale, p.z * modelScale⟩

/-- The operation the spec names `ScaleConverter.toSceneUnits`, assembled
from the arithmetic that `analyze_ship_scaling` (`debug_scaling.py`, lines
49-63) repeats per ship: derive the model scale, then scale the native
position uniformly on each axis.  Returns the pair
`(modelScale, scenePosition)`. -/
def toSceneUnits (nativeLength desiredLength : ℚ) (nativePosition : Vec3) :
    Except ScaleError (ℚ × Vec3) :=
  (modelScaleOf desiredLength nativeLength).map
    (fun s => (s, scalePosition nativePosition s))

/-- Literal constant `'native_length': 142.672` of the Starship_Calypso
configuration in `debug_scaling.py`, line 15. -/
def calypsoNativeLength : ℚ := 142672/1000

/-- Literal constant `'desired_length': 20` of the Starship_Calypso
configuration in `debug_scaling.py`, line 16. -/
def calypsoDesiredLength : ℚ := 20

/-- Literal first weapon hardpoint `{'x': 23.6, 'y': 15.0, 'z': -66.5}` of
the Starship_Calypso configuration in `debug_scaling.py`, line 20. -/
def calypsoWeapon : Vec3 := ⟨236/10, 15, -665/10⟩

/-- Insertion of a rational into a sorted list, the auxiliary step of the
sorting that `np.percentile` performs on its input. -/
def insertSorted (a : ℚ) : List ℚ → List ℚ
  | [] => [a]
  | b :: bs => if a ≤ b then a :: b :: bs else b :: insertSorted a bs

/-- Sorting of a rational list into non-decreasing order (insertion sort),
modelling the sort inside `np.percentile`. -/
def sortQ : List ℚ → List ℚ
  | [] => []
  | a :: as => insertSorted a (sortQ as)

/-- NumPy's `np.percentile(xs, q)` with the default linear-interpolation
method: with the data sorted ascending and `h = (n - 1) * q / 100`, the
result interpolates between the entries at positions `⌊h⌋` and `⌊h⌋ + 1`
(the second index clipped to the last entry). -/
def percentile (xs : List ℚ) (q : ℚ) : ℚ :=
  let s := sortQ xs
  if s.length = 0 then 0
  else
    let h : ℚ := ((s.length : ℚ) - 1) * q / 100
    let i : ℕ := (⌊h⌋).toNat
    let lo := s.getD i 0
    let hi := s.getD (i + 1) lo
    lo + (h - (i : ℚ)) * (hi - lo)

/-- AFT section selection of `analyze_based_on_description`
(`simple_ship_analysis.py`, lines 56-57): with
`aft_threshold = bounds[0][0] + dimensions[0] * 0.75`, keep the vertices
with `x > aft_threshold`. -/
def aftVertices (vs : List Vec3) : List Vec3 :=
  vs.filter (fun v =>
    v.x > listMin (vs.map Vec3.x) +
      (listMax (vs.map Vec3.x) - listMin (vs.map Vec3.x)) * (3/4))

/-- Left-wing vertex selection of `analyze_based_on_description` (line 65):
`aft_vertices[aft_vertices[:, 2] < np.percentile(aft_vertices[:, 2], 30)]`. -/
def leftWingVerts (vs : List Vec3) : List Vec3 :=
  (aftVertices vs).filter
    (fun v => v.z < percentile ((aftVertices vs).map Vec3.z) 30)

/-- Left wing-weapon position of `analyze_based_on_description` (line 69):
the mean of the left-wing vertices, displaced by
`[pos[0] - 10, pos[1] - 10, pos[2]]` to put the weapon "UNDER the wing". -/
def leftWingWeapon (vs : List Vec3) : Vec3 :=
  let p := meanV (leftWingVerts vs)
  ⟨p.x - 10, p.y - 10, p.z⟩

/-- Concrete non-empty mesh refuting the original C1 for the wing-weapon
computation of `simple_ship_analysis.py`: bounding volume
x ∈ [0, 1], y ∈ [0, 0], z ∈ [0, 1]. -/
def c1Mesh : List Vec3 := [⟨0, 0, 0⟩, ⟨1, 0, 0⟩, ⟨1, 0, 1⟩]

/-- Mesh exercising the two-weapon branch of the estimator: a centrally
symmetric 4-vertex mesh whose centroid and vertex mean are the origin. -/
def c1WitnessMesh : List Vec3 :=
  [⟨-5, 0, -10⟩, ⟨5, 0, -10⟩, ⟨5, 0, 10⟩, ⟨-5, 0, 10⟩]

/-- Centrally symmetric 6-vertex mesh (centroid and vertex mean at the
origin) whose rear region is `[(-1,0,9), (1,0,9), (0,0,10)]`: the unique
aft-most vertex `(0,0,10)` differs from the rear-region mean
`(0,0,28/3)`. -/
def c2Mesh : List Vec3 :=
  [⟨-1, 0, 9⟩, ⟨1, 0, 9⟩, ⟨0, 0, 10⟩, ⟨1, 0, -9⟩, ⟨-1, 0, -9⟩, ⟨0, 0, -10⟩]

/-- A degenerate mesh: non-empty, but of zero extent on every axis (a
triangle collapsed onto the origin).  Its centroid, however computed, is
the origin. -/
def c5Mesh : List Vec3 := [⟨0, 0, 0⟩, ⟨0, 0, 0⟩, ⟨0, 0, 0⟩]

/-- Centrally symmetric 4-vertex mesh whose front region
`[(-1,0,-10), (1,0,-10)]` has vertices on both sides of its mean x
coordinate, all within 2 units of it. -/
def c6Mesh : List Vec3 :=
  [⟨-1, 0, -10⟩, ⟨1, 0, -10⟩, ⟨1, 0, 10⟩, ⟨-1, 0, 10⟩]

/-- Centrally symmetric 4-vertex mesh whose front region splits into two
sides beyond the ±2 dead zone, one vertex each. -/
def c6WitnessMesh : List Vec3 :=
  [⟨-5, 0, -10⟩, ⟨5, 0, -10⟩, ⟨5, 0, 10⟩, ⟨-5, 0, 10⟩]

/-- Centrally symmetric 24-vertex mesh whose rear region holds 12 vertices
at x = ±1: both exact lateral halves around the rear mean hold 6 vertices,
but no vertex lies beyond the ±3 dead zone. -/
def c7Mesh : List Vec3 :=
  [⟨-1, 0, 10⟩, ⟨1, 0, 10⟩, ⟨-1, 1, 10⟩, ⟨1, 1, 10⟩,
   ⟨-1, 2, 10⟩, ⟨1, 2, 10⟩, ⟨-1, 3, 10⟩, ⟨1, 3, 10⟩,
   ⟨-1, 4, 10⟩, ⟨1, 4, 10⟩, ⟨-1, 5, 10⟩, ⟨1, 5, 10⟩,
   ⟨1, 0, -10⟩, ⟨-1, 0, -10⟩, ⟨1, -1, -10⟩, ⟨-1, -1, -10⟩,
   ⟨1, -2, -10⟩, ⟨-1, -2, -10⟩, ⟨1, -3, -10⟩, ⟨-1, -3, -10⟩,
   ⟨1, -4, -10⟩, ⟨-1, -4, -10⟩, ⟨1, -5, -10⟩, ⟨-1, -5, -10⟩]

/-- Centrally symmetric 24-vertex mesh whose rear region holds 12 vertices
at x = ±10: 6 vertices on each side of the ±3 dead zone, exercising the
two-secondary-engine branch. -/
def c7WitnessMesh : List Vec3 :=
  [⟨-10, 0, 10⟩, ⟨10, 0, 10⟩, ⟨-10, 1, 10⟩, ⟨10, 1, 10⟩,
   ⟨-10, 2, 10⟩, ⟨10, 2, 10⟩, ⟨-10, 3, 10⟩, ⟨10, 3, 10⟩,
   ⟨-10, 4, 10⟩, ⟨10, 4, 10⟩, ⟨-10, 5, 10⟩, ⟨10, 5, 10⟩,
   ⟨10, 0, -10⟩, ⟨-10, 0, -10⟩, ⟨10, -1, -10⟩, ⟨-10, -1, -10⟩,
   ⟨10, -2, -10⟩, ⟨-10, -2, -10⟩, ⟨10, -3, -10⟩, ⟨-10, -3, -10⟩,
   ⟨10, -4, -10⟩, ⟨-10, -4, -10⟩, ⟨10, -5, -10⟩, ⟨-10, -5, -10⟩]

/-- Centrally symmetric 4-vertex mesh whose front-region vertices all lie
within 2 units of the front mean x and whose rear-region vertices all lie
within 3 units of the rear mean x, with both exact halves inhabited. -/
def c10WitnessMesh : List Vec3 :=
  [⟨-1, 0, -10⟩, ⟨1, 0, -10⟩, ⟨1, 0, 10⟩, ⟨-1, 0, 10⟩]

lemma foldl_min_le_init (l : List ℚ) (a : ℚ) : l.foldl min a ≤ a := by
  induction l generalizing a with
  | nil => simp
  | cons b t ih => exact le_trans (ih (min a b)) (min_le_left a b)

lemma foldl_min_le_mem {l : List ℚ} {b : ℚ} (h : b ∈ l) (a : ℚ) :
    l.foldl min a ≤ b := by
  induction l generalizing a with
  | nil => cases h
  | cons c t ih =>
    rcases List.mem_cons.1 h with rfl | hm
    · exact le_trans (foldl_min_le_init t (min a b)) (min_le_right a b)
    · exact ih hm (min a c)

lemma listMin_le_of_mem {l : List ℚ} {b : ℚ} (h : b ∈ l) : listMin l ≤ b := by
  cases l with
  | nil => cases h
  | cons a t =>
    rcases List.mem_cons.1 h with rfl | hm
    · exact foldl_min_le_init t b
    · exact foldl_min_le_mem hm a

lemma init_le_foldl_max (l : List ℚ) (a : ℚ) : a ≤ l.foldl max a := by
  induction l generalizing a with
  | nil => simp
  | cons b t ih => exact le_trans (le_max_left a b) (ih (max a b))

lemma mem_le_foldl_max {l : List ℚ} {b : ℚ} (h : b ∈ l) (a : ℚ) :
    b ≤ l.foldl max a := by
  induction l generalizing a with
  | nil => cases h
  | cons c t ih =>
    rcases List.mem_cons.1 h with rfl | hm
    · exact le_trans (le_max_right a b) (init_le_foldl_max t (max a b))
    · exact ih hm (max a c)

lemma mem_le_listMax {l : List ℚ} {b : ℚ} (h : b ∈ l) : b ≤ listMax l := by
  cases l with
  | nil => cases h
  | cons a t =>
    rcases List.mem_cons.1 h with rfl | hm
    · exact init_le_foldl_max t b
    · exact mem_le_foldl_max hm a

lemma mul_length_le_sum {l : List ℚ} {lo : ℚ} (h : ∀ a ∈ l, lo ≤ a) :
    lo * l.length ≤ l.sum := by
  induction l with
  | nil => simp
  | cons a t ih =>
    have ha := h a (List.mem_cons_self a t)
    have ht := ih (fun b hb => h b (List.mem_cons_of_mem a hb))
    simp only [List.sum_cons, List.length_cons]
    push_cast
    linarith

lemma sum_le_mul_length {l : List ℚ} {hi : ℚ} (h : ∀ a ∈ l, a ≤ hi) :
    l.sum ≤ hi * l.length := by
  induction l with
  | nil => simp
  | cons a t ih =>
    have ha := h a (List.mem_cons_self a t)
    have ht := ih (fun b hb => h b (List.mem_cons_of_mem a hb))
    simp only [List.sum_cons, List.length_cons]
    push_cast
    linarith

lemma lo_le_meanQ {l : List ℚ} {lo : ℚ} (hne : l ≠ []) (h : ∀ a ∈ l, lo ≤ a) :
    lo ≤ l.sum / l.length := by
  have hlen : (0 : ℚ) < l.length := by exact_mod_cast List.length_pos.2 hne
  rw [le_div_iff₀ hlen]
  exact mul_length_le_sum h

lemma meanQ_le_hi {l : List ℚ} {hi : ℚ} (hne : l ≠ []) (h : ∀ a ∈ l, a ≤ hi) :
    l.sum / l.length ≤ hi := by
  have hlen : (0 : ℚ) < l.length := by exact_mod_cast List.length_pos.2 hne
  rw [div_le_iff₀ hlen]
  exact sum_le_mul_length h

/-- The per-coordinate mean of a non-empty selection of a vertex list stays
inside the bounding volume of that list: the key convexity fact behind the
no-extrapolation invariant. -/
lemma mean_inBoundingVolume {vs l : List Vec3} (hne : l ≠ [])
    (hsub : ∀ v ∈ l, v ∈ vs) : inBoundingVolume vs (meanV l) := by
  have hmap : ∀ f : Vec3 → ℚ,
      listMin (vs.map f) ≤ (l.map f).sum / l.length ∧
      (l.map f).sum / l.length ≤ listMax (vs.map f) := by
    intro f
    have hne2 : l.map f ≠ [] := by
      simpa using hne
    have hlo : ∀ a ∈ l.map f, listMin (vs.map f) ≤ a := by
      intro a ha
      rcases List.mem_map.1 ha with ⟨v, hv, rfl⟩
      exact listMin_le_of_mem (List.mem_map_of_mem f (hsub v hv))
    have hhi : ∀ a ∈ l.map f, a ≤ listMax (vs.map f) := by
      intro a ha
      rcases List.mem_map.1 ha with ⟨v, hv, rfl⟩
      exact mem_le_listMax (List.mem_map_of_mem f (hsub v hv))
    have hlen : (l.map f).length = l.length := List.length_map l f
    constructor
    · have := lo_le_meanQ hne2 hlo
      rwa [hlen] at this
    · have := meanQ_le_hi hne2 hhi
      rwa [hlen] at this
  exact ⟨(hmap Vec3.x).1, (hmap Vec3.x).2, (hmap Vec3.y).1, (hmap Vec3.y).2,
    (hmap Vec3.z).1, (hmap Vec3.z).2⟩

lemma frontRegion_subset {vs : List Vec3} {c v : Vec3}
    (h : v ∈ frontRegion vs c) : v ∈ vs :=
  List.mem_of_mem_filter h

lemma rearRegion_subset {vs : List Vec3} {c v : Vec3}
    (h : v ∈ rearRegion vs c) : v ∈ vs :=
  List.mem_of_mem_filter h

lemma frontLeft_subset {vs : List Vec3} {c v : Vec3}
    (h : v ∈ frontLeft vs c) : v ∈ vs :=
  frontRegion_subset (List.mem_of_mem_filter h)

lemma frontRight_subset {vs : List Vec3} {c v : Vec3}
    (h : v ∈ frontRight vs c) : v ∈ vs :=
  frontRegion_subset (List.mem_of_mem_filter h)

lemma rearLeft_subset {vs : List Vec3} {c v : Vec3}
    (h : v ∈ rearLeft vs c) : v ∈ vs :=
  rearRegion_subset (List.mem_of_mem_filter h)

lemma rearRight_subset {vs : List Vec3} {c v : Vec3}
    (h : v ∈ rearRight vs c) : v ∈ vs :=
  rearRegion_subset (List.mem_of_mem_filter h)

lemma weaponsOf_of_front_ne {vs : List Vec3} {c : Vec3}
    (h : frontRegion vs c ≠ []) :
    weaponsOf vs c =
      if 0 < (frontLeft vs c).length ∧ 0 < (frontRight vs c).length then
        [⟨meanV (frontRight vs c), "cannon"⟩,
         ⟨meanV (frontLeft vs c), "cannon"⟩]
      else [⟨meanV (frontRegion vs c), "cannon"⟩] := by
  unfold weaponsOf
  rw [if_pos (List.length_pos.2 h)]

lemma enginesOf_of_rear_ne {vs : List Vec3} {c : Vec3}
    (h : rearRegion vs c ≠ []) :
    enginesOf vs c =
      ⟨meanV (rearRegion vs c), "main", 1⟩ ::
        (if 5 < (rearLeft vs c).length ∧ 5 < (rearRight vs c).length then
          [⟨meanV (rearRight vs c), "secondary", 7/10⟩,
           ⟨meanV (rearLeft vs c), "secondary", 7/10⟩]
        else []) := by
  unfold enginesOf
  rw [if_pos (List.length_pos.2 h)]

/-- C1.  Every hardpoint position produced by the estimator
`find_logical_hardpoints` — weapon and engine alike — lies within the
axis-aligned bounding volume spanned by the mesh's own vertices: each
returned position is the per-coordinate mean of a non-empty subset of the
vertices, hence never extrapolated.  This is the claim amended to the
estimator of `analyze_model_geometry.py`; the wing-weapon positions of
`simple_ship_analysis.py` violate the original claim (see the
counterexample). -/
theorem C1_estimate_within_bounding_volume (vs : List Vec3) (center : Vec3) :
    (∀ w ∈ (find_logical_hardpoints vs center).weapons,
      inBoundingVolume vs w.position) ∧
    (∀ e ∈ (find_logical_hardpoints vs center).engines,
      inBoundingVolume vs e.position) := by
  constructor
  · intro w hw
    simp only [find_logical_hardpoints] at hw
    unfold weaponsOf at hw
    by_cases hf : 0 < (frontRegion vs center).length
    · rw [if_pos hf] at hw
      have hfr : frontRegion vs center ≠ [] := List.length_pos.1 hf
      by_cases hlr : 0 < (frontLeft vs center).length ∧
          0 < (frontRight vs center).length
      · rw [if_pos hlr] at hw
        rcases List.mem_cons.1 hw with rfl | hw2
        · exact mean_inBoundingVolume (List.length_pos.1 hlr.2)
            (fun v hv => frontRight_subset hv)
        · rcases List.mem_cons.1 hw2 with rfl | hw3
          · exact mean_inBoundingVolume (List.length_pos.1 hlr.1)
              (fun v hv => frontLeft_subset hv)
          · cases hw3
      · rw [if_neg hlr] at hw
        rcases List.mem_cons.1 hw with rfl | hw2
        · exact mean_inBoundingVolume hfr (fun v hv => frontRegion_subset hv)
        · cases hw2
    · rw [if_neg hf] at hw
      cases hw
  · intro e he
    simp only [find_logical_hardpoints] at he
    unfold enginesOf at he
    by_cases hr : 0 < (rearRegion vs center).length
    · rw [if_pos hr] at he
      have hrr : rearRegion vs center ≠ [] := List.length_pos.1 hr
      rcases List.mem_cons.1 he with rfl | he2
      · exact mean_inBoundingVolume hrr (fun v hv => rearRegion_subset hv)
      · by_cases hlr : 5 < (rearLeft vs center).length ∧
            5 < (rearRight vs center).length
        · rw [if_pos hlr] at he2
          rcases List.mem_cons.1 he2 with rfl | he3
          · exact mean_inBoundingVolume
              (List.length_pos.1 (Nat.lt_of_le_of_lt (Nat.zero_le 5) hlr.2))
              (fun v hv => rearRight_subset hv)
          · rcases List.mem_cons.1 he3 with rfl | he4
            · exact mean_inBoundingVolume
                (List.length_pos.1 (Nat.lt_of_le_of_lt (Nat.zero_le 5) hlr.1))
                (fun v hv => rearLeft_subset hv)
            · cases he4
        · rw [if_neg hlr] at he2
          cases he2
    · rw [if_neg hr] at he
      cases he

/-- C1, counterexample.  On the non-empty mesh `c1Mesh` the left wing
weapon computed by `analyze_based_on_description`
(`simple_ship_analysis.py`, line 69) is `(-9, -10, 0)`, which lies outside
the mesh bounding volume (its y coordinate is 10 below the minimum): a
hardpoint position extrapolated outside the min/max per-axis bounds of the
mesh's own vertices, produced from a non-empty selected region. -/
theorem C1_counterexample :
    leftWingVerts c1Mesh ≠ [] ∧
    leftWingWeapon c1Mesh = ⟨-9, -10, 0⟩ ∧
    ¬ inBoundingVolume c1Mesh (leftWingWeapon c1Mesh) := by
  norm_num [c1Mesh, leftWingVerts, leftWingWeapon, aftVertices, percentile,
    sortQ, insertSorted, meanV, listMin, listMax, inBoundingVolume,
    List.filter, List.getD, min_def, max_def]

/-- C1, witness.  On `c1WitnessMesh` the estimator returns the weapon
`(5, 0, -10)` (the right front cannon), and the amended theorem places it
inside the mesh bounding volume. -/
theorem C1_witness :
    inBoundingVolume c1WitnessMesh (⟨5, 0, -10⟩ : Vec3) :=
  (C1_estimate_within_bounding_volume c1WitnessMesh ⟨0, 0, 0⟩).1
    ⟨⟨5, 0, -10⟩, "cannon"⟩
    (by norm_num [c1WitnessMesh, find_logical_hardpoints, weaponsOf,
      frontRegion, frontRight, frontLeft, zExtent, meanV, listMin, listMax,
      List.filter, min_def, max_def])

/-- C2.  Amended claim: whenever the rear region is non-empty, the first
engine returned by `find_logical_hardpoints` is the "main" engine with
relativeScale 1.0, positioned at the per-coordinate mean of the whole rear
region (`rear_center = np.mean(rear_region, axis=0)`, lines 145-150) — not
at the aft-most vertex.  (The aft-most-vertex behaviour the original claim
describes exists only in `intelligent_hardpoint_finder.py`, where the main
engine is the mean of the rear vertices of maximal z.) -/
theorem C2_main_engine_at_rear_mean (vs : List Vec3) (center : Vec3)
    (h : rearRegion vs center ≠ []) :
    (find_logical_hardpoints vs center).engines.head? =
      some ⟨meanV (rearRegion vs center), "main", 1⟩ := by
  show (enginesOf vs center).head? = _
  rw [enginesOf_of_rear_ne h]
  rfl

/-- C2, witness.  On the concrete mesh `c2Mesh` with centroid at the
origin, the first engine is the main engine at the rear-region mean
`(0, 0, 28/3)` with scale 1.0. -/
theorem C2_witness :
    (find_logical_hardpoints c2Mesh ⟨0, 0, 0⟩).engines.head? =
      some ⟨meanV (rearRegion c2Mesh ⟨0, 0, 0⟩), "main", 1⟩ :=
  C2_main_engine_at_rear_mean c2Mesh ⟨0, 0, 0⟩
    (by norm_num [c2Mesh, rearRegion, zExtent, listMin, listMax,
      List.filter, min_def, max_def, List.cons_ne_nil])

/-- C2, counterexample.  On `c2Mesh` the rear region is
`[(-1,0,9), (1,0,9), (0,0,10)]`; its unique most extreme vertex along the
length axis is `(0,0,10)`, yet the "main" engine returned carries position
`(0,0,28/3)` — the average of the rear-region vertices — refuting the claim
that the main engine is the single aft-most vertex and not an average. -/
theorem C2_counterexample :
    (find_logical_hardpoints c2Mesh ⟨0, 0, 0⟩).engines =
      [⟨⟨0, 0, 28/3⟩, "main", 1⟩] ∧
    (⟨0, 0, 10⟩ : Vec3) ∈ rearRegion c2Mesh ⟨0, 0, 0⟩ ∧
    (∀ v ∈ rearRegion c2Mesh ⟨0, 0, 0⟩, v.z ≤ 10) ∧
    (∀ v ∈ rearRegion c2Mesh ⟨0, 0, 0⟩, v.z = 10 → v = ⟨0, 0, 10⟩) ∧
    (⟨0, 0, 28/3⟩ : Vec3) ≠ (⟨0, 0, 10⟩ : Vec3) := by
  norm_num [c2Mesh, find_logical_hardpoints, enginesOf, weaponsOf,
    rearRegion, frontRegion, rearLeft, rearRight, zExtent, meanV,
    listMin, listMax, List.filter, min_def, max_def]

/-- C3.  Amended claim: with the literal inputs nativeLength = 142.672 and
desiredLength = 20 of `debug_scaling.py`, modelScale equals
20 / 142.672 = 1250/8917 ≈ 0.14018 (within 1/100000 of 0.14018), and the
weapon at native (23.6, 15.0, -66.5) maps to the scene position
(3.308, 2.103, -9.322) within ±0.001 on each coordinate — not to
(3.310, 2.103, -9.325) as originally claimed. -/
theorem C3_scaling_literals :
    toSceneUnits calypsoNativeLength calypsoDesiredLength calypsoWeapon =
      .ok (1250/8917, ⟨29500/8917, 18750/8917, -83125/8917⟩) ∧
    |(1250/8917 : ℚ) - 14018/100000| ≤ 1/100000 ∧
    |(29500/8917 : ℚ) - 3308/1000| ≤ 1/1000 ∧
    |(18750/8917 : ℚ) - 2103/1000| ≤ 1/1000 ∧
    |(-83125/8917 : ℚ) + 9322/1000| ≤ 1/1000 := by
  refine ⟨?_, ?_, ?_, ?_, ?_⟩
  · norm_num [toSceneUnits, modelScaleOf, scalePosition,
      calypsoNativeLength, calypsoDesiredLength, calypsoWeapon,
      Except.map]
  all_goals rw [abs_le]; constructor <;> norm_num

/-- C3, counterexample.  The x coordinate of the scaled weapon is
29500/8917 ≈ 3.3083, which differs from the claimed 3.310 by more than the
claimed tolerance 0.001 (and the z coordinate -83125/8917 ≈ -9.3221
likewise differs from -9.325 by more than 0.001): the original target
positions were derived from a mis-rounded modelScale. -/
theorem C3_counterexample :
    toSceneUnits calypsoNativeLength calypsoDesiredLength calypsoWeapon =
      .ok (1250/8917, ⟨29500/8917, 18750/8917, -83125/8917⟩) ∧
    ¬ (|(29500/8917 : ℚ) - 3310/1000| ≤ 1/1000) ∧
    ¬ (|(-83125/8917 : ℚ) + 9325/1000| ≤ 1/1000) := by
  refine ⟨?_, ?_, ?_⟩
  · norm_num [toSceneUnits, modelScaleOf, scalePosition,
      calypsoNativeLength, calypsoDesiredLength, calypsoWeapon,
      Except.map]
  · rw [abs_le]
    push_neg
    intro h
    exact absurd h (by norm_num)
  · rw [abs_le]
    push_neg
    intro h
    norm_num

/-- C4.  The scale conversion fails with the division-by-zero error
exactly when nativeLength = 0, and for every nativeLength ≠ 0 it returns
modelScale = desiredLength / nativeLength together with the native
position scaled by modelScale uniformly on each of the three axes. -/
theorem C4_toSceneUnits_division_by_zero (n d : ℚ) (p : Vec3) :
    (toSceneUnits n d p = .error .divisionByZero ↔ n = 0) ∧
    (n ≠ 0 → toSceneUnits n d p =
      .ok (d / n, ⟨p.x * (d / n), p.y * (d / n), p.z * (d / n)⟩)) := by
  constructor
  · constructor
    · intro h
      by_contra hn
      simp [toSceneUnits, modelScaleOf, hn, Except.map] at h
    · intro h
      simp [toSceneUnits, modelScaleOf, h, Except.map]
  · intro hn
    simp [toSceneUnits, modelScaleOf, scalePosition, hn, Except.map]

/-- C4, witness.  At nativeLength = 0 the conversion fails with the
division-by-zero error; at nativeLength = 5, desiredLength = 20 the
position (1, 2, 3) is scaled by 4 on each axis. -/
theorem C4_witness :
    toSceneUnits 0 20 (⟨1, 2, 3⟩ : Vec3) = .error .divisionByZero ∧
    toSceneUnits 5 20 (⟨1, 2, 3⟩ : Vec3) = .ok (4, ⟨4, 8, 12⟩) := by
  constructor
  · exact (C4_toSceneUnits_division_by_zero 0 20 ⟨1, 2, 3⟩).1.2 rfl
  · rw [(C4_toSceneUnits_division_by_zero 5 20 ⟨1, 2, 3⟩).2 (by norm_num)]
    norm_num

/-- C5.  Amended claim: neither of the spec's error classes exists — the
estimator raises no InvalidMeshError and no EmptyRegionError.  On an
empty mesh it does fail, but with a Python TypeError: trimesh's bounds
property is None for an empty mesh, so the subscript at line 113 raises.
On every non-empty mesh — degenerate zero-extent ones included — the
estimation returns silently, and a spatial region that selects zero
vertices merely contributes an empty hardpoint list. -/
theorem C5_estimator_error_behaviour (vs : List Vec3) (c : Vec3) :
    (find_logical_hardpointsChecked vs c = .error .typeError ↔ vs = []) ∧
    (vs ≠ [] → find_logical_hardpointsChecked vs c =
      .ok (find_logical_hardpoints vs c)) ∧
    (frontRegion vs c = [] → (find_logical_hardpoints vs c).weapons = []) ∧
    (rearRegion vs c = [] → (find_logical_hardpoints vs c).engines = []) := by
  refine ⟨⟨?_, ?_⟩, ?_, ?_, ?_⟩
  · intro h
    by_contra hne
    simp [find_logical_hardpointsChecked, hne] at h
  · intro h
    simp [find_logical_hardpointsChecked, h]
  · intro h
    simp [find_logical_hardpointsChecked, h]
  · intro h
    simp [find_logical_hardpoints, weaponsOf, h]
  · intro h
    simp [find_logical_hardpoints, enginesOf, h]

/-- C5, witness.  The empty mesh fails with the TypeError; the degenerate
non-empty mesh `c5Mesh` is accepted, both of its regions are empty, and
the estimator silently returns empty weapon and engine lists. -/
theorem C5_witness :
    find_logical_hardpointsChecked ([] : List Vec3) ⟨0, 0, 0⟩ =
      .error .typeError ∧
    find_logical_hardpointsChecked c5Mesh ⟨0, 0, 0⟩ =
      .ok (find_logical_hardpoints c5Mesh ⟨0, 0, 0⟩) ∧
    (find_logical_hardpoints c5Mesh ⟨0, 0, 0⟩).weapons = [] ∧
    (find_logical_hardpoints c5Mesh ⟨0, 0, 0⟩).engines = [] := by
  refine ⟨(C5_estimator_error_behaviour [] ⟨0, 0, 0⟩).1.2 rfl,
    (C5_estimator_error_behaviour c5Mesh ⟨0, 0, 0⟩).2.1
      (by norm_num [c5Mesh, List.cons_ne_nil]),
    (C5_estimator_error_behaviour c5Mesh ⟨0, 0, 0⟩).2.2.1
      (by norm_num [c5Mesh, frontRegion, zExtent, listMin, listMax,
        List.filter, min_def, max_def]),
    (C5_estimator_error_behaviour c5Mesh ⟨0, 0, 0⟩).2.2.2
      (by norm_num [c5Mesh, rearRegion, zExtent, listMin, listMax,
        List.filter, min_def, max_def])⟩

/-- C5, counterexample.  The degenerate mesh `c5Mesh` is non-empty but of
zero extent on every axis, and both of its requested regions select zero
vertices; the claim demands InvalidMeshError (degenerate mesh) and
EmptyRegionError (empty region) rather than a silent result, yet the
estimator does not fail at all there: it returns the ordinary empty
result `{'weapons': [], 'engines': []}`. -/
theorem C5_counterexample :
    c5Mesh ≠ [] ∧ zExtent c5Mesh = 0 ∧
    frontRegion c5Mesh ⟨0, 0, 0⟩ = [] ∧
    rearRegion c5Mesh ⟨0, 0, 0⟩ = [] ∧
    find_logical_hardpoints c5Mesh ⟨0, 0, 0⟩ = ⟨[], []⟩ ∧
    find_logical_hardpointsChecked c5Mesh ⟨0, 0, 0⟩ = .ok ⟨[], []⟩ := by
  norm_num [c5Mesh, find_logical_hardpoints, find_logical_hardpointsChecked,
    weaponsOf, enginesOf, frontRegion, rearRegion, zExtent, listMin,
    listMax, List.filter, min_def, max_def, List.cons_ne_nil]

/-- C6.  Amended claim: for a mesh with a non-empty front region the
estimator returns exactly two weapon hardpoints — the means of the two
side sets of the lateral split, which keep only vertices more than 2
native units to the left respectively right of the front-region mean x
(not the two halves of an exact split at the mean) — or, when either side
set is empty, exactly one weapon hardpoint at the front-region mean. -/
theorem C6_front_weapons_dead_zone_split (vs : List Vec3) (c : Vec3)
    (h : frontRegion vs c ≠ []) :
    ((frontLeft vs c ≠ [] ∧ frontRight vs c ≠ []) →
      (find_logical_hardpoints vs c).weapons =
        [⟨meanV (frontRight vs c), "cannon"⟩,
         ⟨meanV (frontLeft vs c), "cannon"⟩]) ∧
    ((frontLeft vs c = [] ∨ frontRight vs c = []) →
      (find_logical_hardpoints vs c).weapons =
        [⟨meanV (frontRegion vs c), "cannon"⟩]) := by
  constructor
  · intro hlr
    show weaponsOf vs c = _
    rw [weaponsOf_of_front_ne h,
      if_pos ⟨List.length_pos.2 hlr.1, List.length_pos.2 hlr.2⟩]
  · intro hlr
    show weaponsOf vs c = _
    rw [weaponsOf_of_front_ne h, if_neg]
    rintro ⟨h1, h2⟩
    rcases hlr with he | he
    · rw [he] at h1
      simp at h1
    · rw [he] at h2
      simp at h2

/-- C6, counterexample.  On `c6Mesh` the front region is
`[(-1,0,-10), (1,0,-10)]`: both halves of an exact lateral split around
the front-region mean x are non-empty, so the original claim requires
exactly two weapon hardpoints, yet the estimator returns one weapon (both
vertices fall inside the ±2 dead zone of the actual split). -/
theorem C6_counterexample :
    ¬ ((find_logical_hardpoints c6Mesh ⟨0, 0, 0⟩).weapons.length = 2 ∨
       (frontRegion c6Mesh ⟨0, 0, 0⟩).filter
         (fun v => v.x < (meanV (frontRegion c6Mesh ⟨0, 0, 0⟩)).x) = [] ∨
       (frontRegion c6Mesh ⟨0, 0, 0⟩).filter
         (fun v => v.x > (meanV (frontRegion c6Mesh ⟨0, 0, 0⟩)).x) = []) := by
  norm_num [c6Mesh, find_logical_hardpoints, weaponsOf, frontRegion,
    frontLeft, frontRight, zExtent, meanV, listMin, listMax, List.filter,
    min_def, max_def, List.cons_ne_nil]

/-- C6, witness.  On `c6WitnessMesh` both side sets of the ±2 split are
inhabited and the estimator returns the two weapons `[right, left]` at the
side means. -/
theorem C6_witness :
    (find_logical_hardpoints c6WitnessMesh ⟨0, 0, 0⟩).weapons =
      [⟨⟨5, 0, -10⟩, "cannon"⟩, ⟨⟨-5, 0, -10⟩, "cannon"⟩] := by
  rw [(C6_front_weapons_dead_zone_split c6WitnessMesh ⟨0, 0, 0⟩
      (by norm_num [c6WitnessMesh, frontRegion, zExtent, listMin, listMax,
        List.filter, min_def, max_def, List.cons_ne_nil])).1
    ⟨by norm_num [c6WitnessMesh, frontLeft, frontRegion, zExtent, meanV,
        listMin, listMax, List.filter, min_def, max_def, List.cons_ne_nil],
     by norm_num [c6WitnessMesh, frontRight, frontRegion, zExtent, meanV,
        listMin, listMax, List.filter, min_def, max_def, List.cons_ne_nil]⟩]
  norm_num [c6WitnessMesh, frontRight, frontLeft, frontRegion, zExtent,
    meanV, listMin, listMax, List.filter, min_def, max_def]

/-- C7.  Amended claim: for a mesh with a non-empty rear region, when both
side sets of the lateral split — vertices more than 3 native units to the
left respectively right of the rear-region mean x (not the two halves of
an exact split at the mean) — each exceed the 5-vertex threshold, the
estimator adds exactly two secondary engine hardpoints at the side means,
each with relativeScale 0.7 ∈ [0.6, 0.8]; when the rear region has fewer
than 5 vertices it returns the single main engine and no secondaries; and
every secondary engine ever returned has relativeScale within
[0.6, 0.8]. -/
theorem C7_rear_secondary_engines_dead_zone (vs : List Vec3) (c : Vec3)
    (h : rearRegion vs c ≠ []) :
    ((5 < (rearLeft vs c).length ∧ 5 < (rearRight vs c).length) →
      (find_logical_hardpoints vs c).engines =
        [⟨meanV (rearRegion vs c), "main", 1⟩,
         ⟨meanV (rearRight vs c), "secondary", 7/10⟩,
         ⟨meanV (rearLeft vs c), "secondary", 7/10⟩]) ∧
    ((rearRegion vs c).length < 5 →
      (find_logical_hardpoints vs c).engines =
        [⟨meanV (rearRegion vs c), "main", 1⟩]) ∧
    (∀ e ∈ (find_logical_hardpoints vs c).engines,
      e.type = "secondary" → 6/10 ≤ e.scale ∧ e.scale ≤ 8/10) := by
  refine ⟨?_, ?_, ?_⟩
  · intro hlr
    show enginesOf vs c = _
    rw [enginesOf_of_rear_ne h, if_pos hlr]
  · intro hlen
    have hle : (rearLeft vs c).length ≤ (rearRegion vs c).length :=
      List.length_filter_le _ _
    have hcond : ¬ (5 < (rearLeft vs c).length ∧
        5 < (rearRight vs c).length) := by
      rintro ⟨h1, _⟩
      omega
    show enginesOf vs c = _
    rw [enginesOf_of_rear_ne h, if_neg hcond]
  · intro e he hsec
    have he2 : e ∈ enginesOf vs c := he
    unfold enginesOf at he2
    by_cases hr : 0 < (rearRegion vs c).length
    · rw [if_pos hr] at he2
      rcases List.mem_cons.1 he2 with rfl | he3
      · simp at hsec
      · by_cases hlr : 5 < (rearLeft vs c).length ∧
            5 < (rearRight vs c).length
        · rw [if_pos hlr] at he3
          rcases List.mem_cons.1 he3 with rfl | he4
          · norm_num
          · rcases List.mem_cons.1 he4 with rfl | he5
            · norm_num
            · cases he5
        · rw [if_neg hlr] at he3
          cases he3
    · rw [if_neg hr] at he2
      cases he2

/-- C7, counterexample.  On `c7Mesh` both halves of an exact lateral split
of the rear region around its mean x hold 6 > 5 vertices, so the original
claim requires exactly two secondary engines, yet the estimator returns
the main engine only: every rear vertex lies inside the ±3 dead zone of
the actual split. -/
theorem C7_counterexample :
    5 < ((rearRegion c7Mesh ⟨0, 0, 0⟩).filter
        (fun v => v.x < (meanV (rearRegion c7Mesh ⟨0, 0, 0⟩)).x)).length ∧
    5 < ((rearRegion c7Mesh ⟨0, 0, 0⟩).filter
        (fun v => v.x > (meanV (rearRegion c7Mesh ⟨0, 0, 0⟩)).x)).length ∧
    (find_logical_hardpoints c7Mesh ⟨0, 0, 0⟩).engines =
      [⟨⟨0, 5/2, 10⟩, "main", 1⟩] := by
  norm_num [c7Mesh, find_logical_hardpoints, enginesOf, rearRegion,
    rearLeft, rearRight, zExtent, meanV, listMin, listMax, List.filter,
    min_def, max_def]

/-- C7, witness.  On `c7WitnessMesh` each side of the ±3 split holds 6 > 5
vertices and the estimator returns the main engine plus the two secondary
engines of scale 0.7 at the side means. -/
theorem C7_witness :
    (find_logical_hardpoints c7WitnessMesh ⟨0, 0, 0⟩).engines =
      [⟨⟨0, 5/2, 10⟩, "main", 1⟩,
       ⟨⟨10, 5/2, 10⟩, "secondary", 7/10⟩,
       ⟨⟨-10, 5/2, 10⟩, "secondary", 7/10⟩] := by
  rw [(C7_rear_secondary_engines_dead_zone c7WitnessMesh ⟨0, 0, 0⟩
      (by norm_num [c7WitnessMesh, rearRegion, zExtent, listMin, listMax,
        List.filter, min_def, max_def, List.cons_ne_nil])).1
    ⟨by norm_num [c7WitnessMesh, rearLeft, rearRegion, zExtent, meanV,
        listMin, listMax, List.filter, min_def, max_def],
     by norm_num [c7WitnessMesh, rearRight, rearRegion, zExtent, meanV,
        listMin, listMax, List.filter, min_def, max_def]⟩]
  norm_num [c7WitnessMesh, rearRight, rearLeft, rearRegion, zExtent,
    meanV, listMin, listMax, List.filter, min_def, max_def]

/-- C8.  The scale conversion is linear in nativeLength: for every nonzero
factor c and nonzero nativeLength, with desiredLength and nativePosition
fixed, converting with c · nativeLength yields the scenePosition (and
modelScale) of the original conversion divided by c on every axis. -/
theorem C8_toSceneUnits_linear_in_nativeLength (c n d : ℚ) (p : Vec3)
    (hc : c ≠ 0) (hn : n ≠ 0) :
    toSceneUnits (c * n) d p =
      (toSceneUnits n d p).map
        (fun r => (r.1 / c, ⟨r.2.x / c, r.2.y / c, r.2.z / c⟩)) := by
  have hcn : c * n ≠ 0 := mul_ne_zero hc hn
  simp only [toSceneUnits, modelScaleOf, scalePosition, if_neg hn,
    if_neg hcn, Except.map, Except.ok.injEq, Prod.mk.injEq, Vec3.mk.injEq]
  refine ⟨by rw [div_div, mul_comm c n],
    by rw [mul_div_assoc, div_div, mul_comm c n],
    by rw [mul_div_assoc, div_div, mul_comm c n],
    by rw [mul_div_assoc, div_div, mul_comm c n]⟩

/-- C8, witness.  Doubling the native length 5 to 10 halves the model
scale and every coordinate of the scene position of (1, 2, 3). -/
theorem C8_witness :
    toSceneUnits (2 * 5) 20 (⟨1, 2, 3⟩ : Vec3) =
      (toSceneUnits 5 20 (⟨1, 2, 3⟩ : Vec3)).map
        (fun r => (r.1 / 2, ⟨r.2.x / 2, r.2.y / 2, r.2.z / 2⟩)) :=
  C8_toSceneUnits_linear_in_nativeLength 2 5 20 ⟨1, 2, 3⟩
    (by norm_num) (by norm_num)

/-- C9.  The estimation step is deterministic: with the ambient NumPy RNG
state threaded explicitly, the hardpoints returned for identical mesh and
centroid are identical across any two RNG states, and the estimation
neither reads nor advances the state (random sampling occurs only in the
visualization code, outside the estimation). -/
theorem C9_estimation_deterministic (vs : List Vec3) (center : Vec3)
    (r₁ r₂ : ℕ) :
    (find_logical_hardpointsRng vs center r₁).1 =
      (find_logical_hardpointsRng vs center r₂).1 ∧
    (find_logical_hardpointsRng vs center r₁).2 = r₁ :=
  ⟨rfl, rfl⟩

/-- C10.  The lateral split excludes a fixed dead zone around the region
mean — 2 native units in the front region, 3 in the rear region — so the
side sets do not partition the region: whenever every front-region vertex
lies within 2 units of the front-region mean x, the estimator returns
exactly one centered weapon even when both halves of an exact split at the
mean are non-empty; and whenever every rear-region vertex lies within 3
units of the rear-region mean x, it returns the main engine alone. -/
theorem C10_lateral_dead_zone (vs : List Vec3) (c : Vec3) :
    (frontRegion vs c ≠ [] →
      (∀ v ∈ frontRegion vs c,
        |v.x - (meanV (frontRegion vs c)).x| ≤ 2) →
      (∃ v ∈ frontRegion vs c, v.x < (meanV (frontRegion vs c)).x) →
      (∃ v ∈ frontRegion vs c, (meanV (frontRegion vs c)).x < v.x) →
      (find_logical_hardpoints vs c).weapons =
        [⟨meanV (frontRegion vs c), "cannon"⟩]) ∧
    (rearRegion vs c ≠ [] →
      (∀ v ∈ rearRegion vs c,
        |v.x - (meanV (rearRegion vs c)).x| ≤ 3) →
      (find_logical_hardpoints vs c).engines =
        [⟨meanV (rearRegion vs c), "main", 1⟩]) := by
  constructor
  · intro h hall hex1 hex2
    have hleft : frontLeft vs c = [] := by
      unfold frontLeft
      rw [List.filter_eq_nil_iff]
      intro v hv
      have h2 := (abs_le.1 (hall v hv)).1
      simp only [decide_eq_true_eq, not_lt]
      linarith
    have hcond : ¬ (0 < (frontLeft vs c).length ∧
        0 < (frontRight vs c).length) := by
      rw [hleft]
      simp
    show weaponsOf vs c = _
    rw [weaponsOf_of_front_ne h, if_neg hcond]
  · intro h hall
    have hleft : rearLeft vs c = [] := by
      unfold rearLeft
      rw [List.filter_eq_nil_iff]
      intro v hv
      have h2 := (abs_le.1 (hall v hv)).1
      simp only [decide_eq_true_eq, not_lt]
      linarith
    have hcond : ¬ (5 < (rearLeft vs c).length ∧
        5 < (rearRight vs c).length) := by
      rw [hleft]
      simp
    show enginesOf vs c = _
    rw [enginesOf_of_rear_ne h, if_neg hcond]

/-- C10, witness.  On `c10WitnessMesh` the front-region vertices sit at
x = ±1 (both exact halves inhabited, all within the ±2 dead zone) and the
rear-region vertices likewise sit within the ±3 dead zone: the estimator
returns the single centered weapon and the single main engine. -/
theorem C10_witness :
    (find_logical_hardpoints c10WitnessMesh ⟨0, 0, 0⟩).weapons =
      [⟨⟨0, 0, -10⟩, "cannon"⟩] ∧
    (find_logical_hardpoints c10WitnessMesh ⟨0, 0, 0⟩).engines =
      [⟨⟨0, 0, 10⟩, "main", 1⟩] := by
  have hmain := C10_lateral_dead_zone c10WitnessMesh ⟨0, 0, 0⟩
  constructor
  · rw [hmain.1
      (by norm_num [c10WitnessMesh, frontRegion, zExtent, listMin, listMax,
        List.filter, min_def, max_def, List.cons_ne_nil])
      (by norm_num [c10WitnessMesh, frontRegion, zExtent, meanV, listMin,
        listMax, List.filter, min_def, max_def, abs_le])
      ⟨⟨-1, 0, -10⟩,
        by norm_num [c10WitnessMesh, frontRegion, zExtent, listMin,
          listMax, List.filter, min_def, max_def],
        by norm_num [c10WitnessMesh, frontRegion, zExtent, meanV, listMin,
          listMax, List.filter, min_def, max_def]⟩
      ⟨⟨1, 0, -10⟩,
        by norm_num [c10WitnessMesh, frontRegion, zExtent, listMin,
          listMax, List.filter, min_def, max_def],
        by norm_num [c10WitnessMesh, frontRegion, zExtent, meanV, listMin,
          listMax, List.filter, min_def, max_def]⟩]
    norm_num [c10WitnessMesh, frontRegion, zExtent, meanV, listMin,
      listMax, List.filter, min_def, max_def]
  · rw [hmain.2
      (by norm_num [c10WitnessMesh, rearRegion, zExtent, listMin, listMax,
        List.filter, min_def, max_def, List.cons_ne_nil])
      (by norm_num [c10WitnessMesh, rearRegion, zExtent, meanV, listMin,
        listMax, List.filter, min_def, max_def, abs_le])]
    norm_num [c10WitnessMesh, rearRegion, zExtent, meanV, listMin,
      listMax, List.filter, min_def, max_def]
